import Mathlib

/-
Verification of the model-dispatch layer of the ai-chatbot repository:
provider resolution (src/lib/ai/index.ts), the middleware-wrapping model
handle factory, the console logger (src/lib/utilities/logger.ts), the
binary upload endpoint, and the static model catalog (src/lib/ai/models.ts).
JavaScript strings are embedded as Lean `String` (a list of characters);
`String.prototype.startsWith` and `String.prototype.replace` (first
occurrence only) are embedded below as `strStartsWith` and `replaceFirst`.
-/

namespace AiChatbot

/-- Embedding of the character-level prefix test behind
JavaScript `String.prototype.startsWith`: `leadingChars pat s` is true
iff `pat` is an initial segment of `s`. -/
def leadingChars : List Char → List Char → Bool
  | [], _ => true
  | _ :: _, [] => false
  | p :: ps, c :: cs => p == c && leadingChars ps cs

/-- Embedding of JavaScript `s.replace(pat, repl)` for string patterns:
only the FIRST occurrence of `pat` in `s` is replaced; if `pat` does not
occur, `s` is returned unchanged. -/
def listReplaceFirst (pat repl : List Char) : List Char → List Char
  | [] => if leadingChars pat [] then repl else []
  | c :: cs =>
    if leadingChars pat (c :: cs) then repl ++ (c :: cs).drop pat.length
    else c :: listReplaceFirst pat repl cs

/-- JavaScript `s.startsWith(pre)`. -/
def strStartsWith (s pre : String) : Bool :=
  leadingChars pre.data s.data

/-- JavaScript `s.replace(pat, repl)` (first occurrence only). -/
def replaceFirst (s pat repl : String) : String :=
  ⟨listReplaceFirst pat.data repl.data s.data⟩

theorem strData_append (s t : String) : (s ++ t).data = s.data ++ t.data := by
  cases s; cases t; rfl

theorem leadingChars_append (pat rest : List Char) :
    leadingChars pat (pat ++ rest) = true := by
  induction pat with
  | nil => rfl
  | cons p ps ih => simp [leadingChars, ih]

theorem listReplaceFirst_of_leading {pat s : List Char}
    (h : leadingChars pat s = true) :
    listReplaceFirst pat [] s = s.drop pat.length := by
  cases s with
  | nil => cases pat <;> simp [listReplaceFirst, List.drop]
  | cons c cs => simp [listReplaceFirst, h]

theorem listReplaceFirst_append (pat rest : List Char) :
    listReplaceFirst pat [] (pat ++ rest) = rest := by
  rw [listReplaceFirst_of_leading (leadingChars_append pat rest)]
  exact List.drop_left pat rest

/-- `s.replace(pat, '')` strips `pat` exactly when `s = pat ++ rest`. -/
theorem replaceFirst_strip (pat rest : String) :
    replaceFirst (pat ++ rest) pat "" = rest := by
  cases pat with
  | mk patData =>
    cases rest with
    | mk restData =>
      show String.mk (listReplaceFirst patData [] (String.mk patData ++ String.mk restData).data) = String.mk restData
      rw [strData_append]
      exact congrArg String.mk (listReplaceFirst_append patData restData)

theorem strStartsWith_append (pat rest : String) :
    strStartsWith (pat ++ rest) pat = true := by
  unfold strStartsWith
  rw [strData_append]
  exact leadingChars_append pat.data rest.data

/-!
Provider resolution, from src/lib/ai/index.ts.  The three provider
constructors come from external SDKs; they are embedded as parameters
that may fail (a thrown error is an `Except.error`).
-/

/-- The provider client registry: one constructor per backend family,
each taking a backend-specific model name and either returning a model
object or throwing (src/lib/ai/index.ts imports openai, anthropic,
bedrock). -/
structure Providers (ε μ : Type) where
  openai : String → Except ε μ
  anthropic : String → Except ε μ
  bedrock : String → Except ε μ

/-- Embedding of `createProviderModel` (src/lib/ai/index.ts lines 8-23):
check `startsWith('anthropic:')`, strip via `replace('anthropic:', '')`
and call `anthropic`; else check `startsWith('bedrock:')`, strip and call
`bedrock`; otherwise fall back to `openai` with the whole identifier. -/
def createProviderModel {ε μ : Type} (P : Providers ε μ)
    (apiIdentifier : String) : Except ε μ :=
  if strStartsWith apiIdentifier "anthropic:" then
    let modelId := replaceFirst apiIdentifier "anthropic:" ""
    P.anthropic modelId
  else if strStartsWith apiIdentifier "bedrock:" then
    let modelId := replaceFirst apiIdentifier "bedrock:" ""
    P.bedrock modelId
  else
    P.openai apiIdentifier

theorem not_anthropic_of_bedrock (rest : String) :
    strStartsWith ("bedrock:" ++ rest) "anthropic:" = false := by
  unfold strStartsWith
  rw [strData_append]
  rfl

/-!
A declarative view of resolution, used to state that the outcome is
uniquely determined by the identifier (spec section 4.1: fixed priority
order, first match wins, default as catch-all).
-/

/-- Which registry entry resolution picked and the backend-specific name
it passes to that entry's constructor. -/
inductive Selection where
  | anthropic (modelId : String)
  | bedrock (modelId : String)
  | openai (modelId : String)
deriving DecidableEq, Repr

/-- The selection `createProviderModel` computes, separated from the
constructor invocation. -/
def selectProvider (apiIdentifier : String) : Selection :=
  if strStartsWith apiIdentifier "anthropic:" then
    Selection.anthropic (replaceFirst apiIdentifier "anthropic:" "")
  else if strStartsWith apiIdentifier "bedrock:" then
    Selection.bedrock (replaceFirst apiIdentifier "bedrock:" "")
  else
    Selection.openai apiIdentifier

/-- Invoke the constructor a selection names. -/
def applySelection {ε μ : Type} (P : Providers ε μ) : Selection → Except ε μ
  | Selection.anthropic m => P.anthropic m
  | Selection.bedrock m => P.bedrock m
  | Selection.openai m => P.openai m

/-- Declarative specification of which selection is correct for an
identifier: the anthropic tag is tried first, then bedrock, and openai
is the catch-all receiving the identifier whole. -/
def SelectsSpec (id : String) : Selection → Prop
  | Selection.anthropic m => id = "anthropic:" ++ m
  | Selection.bedrock m =>
      strStartsWith id "anthropic:" = false ∧ id = "bedrock:" ++ m
  | Selection.openai m =>
      strStartsWith id "anthropic:" = false ∧
      strStartsWith id "bedrock:" = false ∧ m = id

theorem strAppend_left_cancel {pat a b : String}
    (h : pat ++ a = pat ++ b) : a = b := by
  cases pat with
  | mk patData =>
    cases a with
    | mk aData =>
      cases b with
      | mk bData =>
        have hd : patData ++ aData = patData ++ bData := by
          have := congrArg String.data h
          rwa [strData_append, strData_append] at this
        exact congrArg String.mk (List.append_cancel_left hd)

theorem selectsSpec_unique {id : String} {s₁ s₂ : Selection}
    (h₁ : SelectsSpec id s₁) (h₂ : SelectsSpec id s₂) : s₁ = s₂ := by
  cases s₁ with
  | anthropic m₁ =>
    cases s₂ with
    | anthropic m₂ =>
      have : ("anthropic:" ++ m₁ : String) = "anthropic:" ++ m₂ := by
        rw [← h₁, ← h₂]
      rw [strAppend_left_cancel this]
    | bedrock m₂ =>
      exact absurd (h₁ ▸ h₂.1) (by simp [strStartsWith_append])
    | openai m₂ =>
      exact absurd (h₁ ▸ h₂.1) (by simp [strStartsWith_append])
  | bedrock m₁ =>
    cases s₂ with
    | anthropic m₂ =>
      exact absurd (h₂ ▸ h₁.1) (by simp [strStartsWith_append])
    | bedrock m₂ =>
      have : ("bedrock:" ++ m₁ : String) = "bedrock:" ++ m₂ := by
        rw [← h₁.2, ← h₂.2]
      rw [strAppend_left_cancel this]
    | openai m₂ =>
      exact absurd (h₁.2 ▸ h₂.2.1) (by simp [strStartsWith_append])
  | openai m₁ =>
    cases s₂ with
    | anthropic m₂ =>
      exact absurd (h₂ ▸ h₁.1) (by simp [strStartsWith_append])
    | bedrock m₂ =>
      exact absurd (h₂.2 ▸ h₁.2.1) (by simp [strStartsWith_append])
    | openai m₂ =>
      rw [h₁.2.2, h₂.2.2]

theorem leading_decompose {pat s : List Char}
    (h : leadingChars pat s = true) : s = pat ++ s.drop pat.length := by
  induction pat generalizing s with
  | nil => simp
  | cons p ps ih =>
    cases s with
    | nil => exact absurd h (by simp [leadingChars])
    | cons c cs =>
      simp only [leadingChars, Bool.and_eq_true, beq_iff_eq] at h
      obtain ⟨hpc, htl⟩ := h
      subst hpc
      simpa using ih htl

/-- When `startsWith` holds, `replace(pat, '')` yields exactly the
suffix: the identifier decomposes as the tag followed by the remainder
the constructor receives. -/
theorem strStartsWith_decompose {id pat : String}
    (h : strStartsWith id pat = true) :
    id = pat ++ replaceFirst id pat "" := by
  cases id with
  | mk idData =>
    cases pat with
    | mk patData =>
      have h' : leadingChars patData idData = true := h
      have hdata : idData = patData ++ listReplaceFirst patData [] idData := by
        rw [listReplaceFirst_of_leading h']
        exact leading_decompose h'
      exact congrArg String.mk hdata

theorem selectProvider_selects (id : String) :
    SelectsSpec id (selectProvider id) := by
  unfold selectProvider
  by_cases ha : strStartsWith id "anthropic:" = true
  · simp only [ha, if_true]
    exact strStartsWith_decompose ha
  · have ha' : strStartsWith id "anthropic:" = false := by
      simpa using ha
    by_cases hb : strStartsWith id "bedrock:" = true
    · simp only [ha', hb, Bool.false_eq_true, if_false, if_true]
      exact ⟨ha', strStartsWith_decompose hb⟩
    · have hb' : strStartsWith id "bedrock:" = false := by
        simpa using hb
      simp only [ha', hb', Bool.false_eq_true, if_false]
      exact ⟨ha', hb', rfl⟩

/-- `createProviderModel` factors through the pure selection: resolution
invokes exactly the constructor and argument the selection names. -/
theorem createProviderModel_eq_applySelection {ε μ : Type}
    (P : Providers ε μ) (id : String) :
    createProviderModel P id = applySelection P (selectProvider id) := by
  unfold createProviderModel selectProvider
  by_cases ha : strStartsWith id "anthropic:" = true
  · simp [ha, applySelection]
  · by_cases hb : strStartsWith id "bedrock:" = true
    · simp [ha, hb, applySelection]
    · simp [ha, hb, applySelection]

/-!
Middleware chain.  The wrapping function (`experimental_wrapLanguageModel`
from the ai SDK) and the configured stage list (`./custom-middleware`)
are not source files of this repository snapshot; they are modelled from
the spec (section 4.2).
-/

/-- Modelled from the spec: a Middleware Stage is an optional pair of a
parameter transformer and a generate wrapper (`transformParams`,
`wrapGenerate`); an absent member leaves that aspect untouched.
The `wrapStream` member is omitted; the stream path is symmetric to
generate and no claim distinguishes them. -/
structure MiddlewareStage (π ρ : Type) where
  transformParams : Option (π → π)
  wrapGenerate : Option ((π → ρ) → π → ρ)

/-- Modelled from the spec: a Callable Model Object exposing a single
`generate` operation from call parameters to a result. -/
structure CallableModel (π ρ : Type) where
  generate : π → ρ

/-- Modelled from the spec: call parameters pass through every stage's
`transformParams` (when present) in list order; a stage without
`transformParams` passes parameters through unchanged. -/
def applyTransforms {π ρ : Type} (stages : List (MiddlewareStage π ρ))
    (params : π) : π :=
  stages.foldl (fun p s => (s.transformParams.getD id) p) params

/-- Modelled from the spec: composing stages `[S1, ..., Sn]` produces
`S1.wrapGenerate (S2.wrapGenerate (... (Sn.wrapGenerate realGenerate)))`;
a stage lacking `wrapGenerate` is transparent. -/
def wrapGenerates {π ρ : Type} (stages : List (MiddlewareStage π ρ))
    (realGenerate : π → ρ) : π → ρ :=
  stages.foldr
    (fun s g => match s.wrapGenerate with
      | some w => w g
      | none => g)
    realGenerate

/-- Modelled from the spec: `wrap(model, stages)` returns a handle of the
same shape whose `generate` first runs every stage's parameter
transformation in list order, then the wrapped generate chain around the
real call. -/
def wrap {π ρ : Type} (model : CallableModel π ρ)
    (stages : List (MiddlewareStage π ρ)) : CallableModel π ρ :=
  { generate := fun params =>
      wrapGenerates stages model.generate (applyTransforms stages params) }

/-- Embedding of `customModel` (src/lib/ai/index.ts lines 25-30): resolve
the identifier with `createProviderModel`, then wrap the resolved model
with the static `customMiddleware` configuration.  A throw during
resolution aborts before wrapping (in JavaScript the argument
`createProviderModel(apiIdentifier)` is evaluated before
`wrapLanguageModel` is entered), which `Except.map` captures. -/
def customModel {ε π ρ : Type} (P : Providers ε (CallableModel π ρ))
    (customMiddleware : List (MiddlewareStage π ρ))
    (apiIdentifier : String) : Except ε (CallableModel π ρ) :=
  (createProviderModel P apiIdentifier).map (fun m => wrap m customMiddleware)

/-!
Console logger, from src/lib/utilities/logger.ts.  The numeric log
levels mirror the source's const enum; each severity-leveled operation
appends a formatted line to the console exactly when the configured
level passes its guard.  Timestamps and terminal colors are formatting
detail outside the claims; the emitted entry records severity tag,
context and message.
-/

/-- Log levels of src/lib/utilities/logger.ts (const enum LogLevel):
NONE = 0, ERROR = 1, WARN = 2, INFO = 3, DEBUG = 4. -/
def LogLevel.NONE : Nat := 0

def LogLevel.ERROR : Nat := 1

def LogLevel.WARN : Nat := 2

def LogLevel.INFO : Nat := 3

def LogLevel.DEBUG : Nat := 4

/-- A line written to the console: the severity tag, the logger context
and the formatted message. -/
structure LogEntry where
  level : String
  context : String
  message : String
deriving DecidableEq, Repr

/-- `logger.debug`: emits only when `logLevel >= LogLevel.DEBUG`. -/
def loggerDebug (logLevel : Nat) (context msg : String)
    (console : List LogEntry) : List LogEntry :=
  if LogLevel.DEBUG ≤ logLevel then console ++ [⟨"DEBUG", context, msg⟩]
  else console

/-- `logger.info`: emits only when `logLevel >= LogLevel.INFO`. -/
def loggerInfo (logLevel : Nat) (context msg : String)
    (console : List LogEntry) : List LogEntry :=
  if LogLevel.INFO ≤ logLevel then console ++ [⟨"INFO", context, msg⟩]
  else console

/-- `logger.warn`: emits only when `logLevel >= LogLevel.WARN`. -/
def loggerWarn (logLevel : Nat) (context msg : String)
    (console : List LogEntry) : List LogEntry :=
  if LogLevel.WARN ≤ logLevel then console ++ [⟨"WARN", context, msg⟩]
  else console

/-- `logger.error`: emits only when `logLevel >= LogLevel.ERROR`. -/
def loggerError (logLevel : Nat) (context msg : String)
    (console : List LogEntry) : List LogEntry :=
  if LogLevel.ERROR ≤ logLevel then console ++ [⟨"ERROR", context, msg⟩]
  else console

/-!
Binary upload endpoint (src/unnamed/part_000): authenticate, check the
body, read the form file, validate it against FileSchema, then store it
with `put` and return the storage descriptor.  The blob store `put` is
an external collaborator, embedded as a fallible function parameter.
-/

/-- A received blob: its byte size, MIME type and file name. -/
structure Blob where
  size : Nat
  type : String
  name : String
deriving DecidableEq, Repr

/-- FileSchema (src/unnamed/part_000 lines 10-20): each failed zod
refinement contributes its message; the blob passes validation when no
message is produced. -/
def fileSchemaErrors (file : Blob) : List String :=
  (if file.size ≤ 5 * 1024 * 1024 then []
   else ["File size should be less than 5MB"]) ++
  (if file.type = "image/jpeg" ∨ file.type = "image/png" then []
   else ["File type should be JPEG or PNG"])

/-- The blob passes FileSchema: size at most 5 * 1024 * 1024 bytes and
type image/jpeg or image/png. -/
def fileValid (file : Blob) : Bool :=
  decide (fileSchemaErrors file = [])

/-- Observable outcome of the POST handler: HTTP status, whether `put`
was invoked on the blob, and the storage descriptor when one is
returned. -/
structure UploadOutcome (δ : Type) where
  status : Nat
  stored : Bool
  descriptor : Option δ
deriving Repr

/-- Embedding of the POST handler (src/unnamed/part_000 lines 22-76):
401 without a session; 400 on a null body; 500 if reading the form data
throws; 400 when no file field is present; 400 with the joined messages
when FileSchema rejects; otherwise `put` stores the blob under its file
name and the handler returns its descriptor (status 200), or 500 if
`put` throws. -/
def uploadPOST {δ : Type} (authed : Bool) (bodyPresent : Bool)
    (formFile : Except Unit (Option Blob))
    (put : String → Except Unit δ) : UploadOutcome δ :=
  if !authed then ⟨401, false, none⟩
  else if !bodyPresent then ⟨400, false, none⟩
  else
    match formFile with
    | Except.error _ => ⟨500, false, none⟩
    | Except.ok none => ⟨400, false, none⟩
    | Except.ok (some file) =>
      if fileValid file then
        match put file.name with
        | Except.ok data => ⟨200, true, some data⟩
        | Except.error _ => ⟨500, true, none⟩
      else ⟨400, false, none⟩

/-!
Static model catalog, from src/lib/ai/models.ts.
-/

/-- The Model interface of src/lib/ai/models.ts. -/
structure Model where
  id : String
  label : String
  apiIdentifier : String
  description : String
deriving DecidableEq, Repr

/-- The `models` array of src/lib/ai/models.ts. -/
def models : List Model := [
  { id := "bedrock:anthropic.claude-3-haiku-20240307-v1:0",
    label := "Bedrock - Claude 3 Haiku",
    apiIdentifier := "bedrock:anthropic.claude-3-haiku-20240307-v1:0",
    description := "Anthropic Claude on Amazon Bedrock with Haiku 3 variant" },
  { id := "bedrock:anthropic.claude-3-5-haiku-20241022-v1:0",
    label := "Bedrock - Claude 3.5 Haiku",
    apiIdentifier := "bedrock:anthropic.claude-3-5-haiku-20241022-v1:0",
    description := "Anthropic Claude on Amazon Bedrock with Haiku 3.5 variant" },
  { id := "bedrock:anthropic.claude-3-5-sonnet-20241022-v2:0",
    label := "Bedrock - Claude 3.5 Sonnet V2",
    apiIdentifier := "bedrock:anthropic.claude-3-5-sonnet-20241022-v2:0",
    description := "Anthropic Claude on Amazon Bedrock with Sonnet variant" },
  { id := "gpt-4o-mini",
    label := "OpenAI - GPT 4o mini",
    apiIdentifier := "gpt-4o-mini",
    description := "Small model for fast, lightweight tasks" },
  { id := "gpt-4o",
    label := "OpenAI - GPT 4o",
    apiIdentifier := "gpt-4o",
    description := "For complex, multi-step tasks" },
  { id := "anthropic:claude-3-5-haiku-20241022",
    label := "Anthropic - Claude 3.5 Haiku",
    apiIdentifier := "anthropic:claude-3-5-haiku-20241022",
    description := "Anthropic’s faster Claude model for simpler tasks" },
  { id := "anthropic:claude-3-5-sonnet-20241022",
    label := "Anthropic - Claude 3.5 Sonnet V2)",
    apiIdentifier := "anthropic:claude-3-5-sonnet-20241022",
    description := "Anthropic’s advanced Claude model for complex tasks" }
]

/-- DEFAULT_MODEL_NAME from src/lib/ai/models.ts line 62. -/
def DEFAULT_MODEL_NAME : String := "gpt-4o-mini"

/-!
Resolution helper lemmas shared by the claim theorems.
-/

theorem createProviderModel_anthropic {ε μ : Type} (P : Providers ε μ)
    (rest : String) :
    createProviderModel P ("anthropic:" ++ rest) = P.anthropic rest := by
  unfold createProviderModel
  simp [strStartsWith_append, replaceFirst_strip]

theorem createProviderModel_bedrock {ε μ : Type} (P : Providers ε μ)
    (rest : String) :
    createProviderModel P ("bedrock:" ++ rest) = P.bedrock rest := by
  unfold createProviderModel
  simp [strStartsWith_append, not_anthropic_of_bedrock, replaceFirst_strip]

theorem createProviderModel_default {ε μ : Type} (P : Providers ε μ)
    (id : String) (ha : strStartsWith id "anthropic:" = false)
    (hb : strStartsWith id "bedrock:" = false) :
    createProviderModel P id = P.openai id := by
  unfold createProviderModel
  simp [ha, hb]

/-- Appending one entry to the console always changes it. -/
theorem append_single_ne (console : List LogEntry) (e : LogEntry) :
    console ++ [e] ≠ console := by
  intro h
  have hl := congrArg List.length h
  simp at hl

/-- A guarded console write emits its entry exactly when the threshold
is at or above the operation's severity. -/
theorem emit_iff (sev logLevel : Nat) (e : LogEntry)
    (console : List LogEntry) :
    ((if sev ≤ logLevel then console ++ [e] else console) =
        console ++ [e] ↔ sev ≤ logLevel) := by
  by_cases h : sev ≤ logLevel
  · simp [h]
  · simp [h]

/-- A guarded console write is a no-op exactly when the threshold is
below the operation's severity. -/
theorem noop_iff (sev logLevel : Nat) (e : LogEntry)
    (console : List LogEntry) :
    ((if sev ≤ logLevel then console ++ [e] else console) = console ↔
        logLevel < sev) := by
  by_cases h : sev ≤ logLevel
  · simp [h, append_single_ne console e, Nat.not_lt.mpr h]
  · simp [h, Nat.lt_of_not_le h]

/-- Concrete registry whose constructors succeed, used by witnesses. -/
def natProviders : Providers Unit (CallableModel Nat Nat) where
  openai := fun _ => Except.ok ⟨fun p => p + 1⟩
  anthropic := fun _ => Except.ok ⟨fun p => p + 2⟩
  bedrock := fun _ => Except.ok ⟨fun p => p + 3⟩

/-- Concrete registry whose constructors all throw (e.g. missing
credentials), used by witnesses. -/
def failingProviders : Providers String (CallableModel Nat Nat) where
  openai := fun _ => Except.error "openai credentials missing"
  anthropic := fun _ => Except.error "anthropic credentials missing"
  bedrock := fun _ => Except.error "bedrock credentials missing"

/-!
Claim theorems.
-/

/-- Claim C1: for every identifier starting with a registered namespace
tag followed by the delimiter (the registered tags being anthropic and
bedrock, each written with its trailing colon delimiter), resolution
selects that provider's constructor and passes it exactly the identifier
with the tag-plus-delimiter prefix removed. -/
theorem claim_C1 {ε μ : Type} (P : Providers ε μ) (rest : String) :
    createProviderModel P ("anthropic:" ++ rest) = P.anthropic rest ∧
    createProviderModel P ("bedrock:" ++ rest) = P.bedrock rest :=
  ⟨createProviderModel_anthropic P rest, createProviderModel_bedrock P rest⟩

/-- Claim C2: every identifier starting with neither anthropic nor
bedrock tag is passed whole and unmodified to the default (openai)
constructor. -/
theorem claim_C2 {ε μ : Type} (P : Providers ε μ) (id : String)
    (ha : strStartsWith id "anthropic:" = false)
    (hb : strStartsWith id "bedrock:" = false) :
    createProviderModel P id = P.openai id :=
  createProviderModel_default P id ha hb

theorem claim_C2_witness :
    strStartsWith "gpt-4o" "anthropic:" = false ∧
    strStartsWith "gpt-4o" "bedrock:" = false ∧
    createProviderModel natProviders "gpt-4o" = natProviders.openai "gpt-4o" :=
  ⟨rfl, rfl, claim_C2 natProviders "gpt-4o" rfl rfl⟩

/-- Claim C3: the model handle factory resolves the identifier, wraps
exactly the resolved model with the static middleware configuration, and
performs no other computation on the identifier (identifiers resolving
alike yield equal handles); it is a pure function with no state of its
own. -/
theorem claim_C3 {ε π ρ : Type} (P : Providers ε (CallableModel π ρ))
    (mw : List (MiddlewareStage π ρ)) (id₁ id₂ : String)
    (m : CallableModel π ρ) :
    (createProviderModel P id₁ = Except.ok m →
      customModel P mw id₁ = Except.ok (wrap m mw)) ∧
    (createProviderModel P id₁ = createProviderModel P id₂ →
      customModel P mw id₁ = customModel P mw id₂) := by
  constructor
  · intro h
    unfold customModel
    rw [h]
    rfl
  · intro h
    unfold customModel
    rw [h]

theorem claim_C3_witness :
    createProviderModel natProviders "gpt-4o" =
      Except.ok (⟨fun p => p + 1⟩ : CallableModel Nat Nat) ∧
    customModel natProviders [] "gpt-4o" =
      Except.ok (wrap (⟨fun p => p + 1⟩ : CallableModel Nat Nat) []) :=
  ⟨rfl, (claim_C3 natProviders [] "gpt-4o" "gpt-4o" ⟨fun p => p + 1⟩).1 rfl⟩

/-- Claim C4: an error thrown by the selected provider constructor
propagates unmodified and synchronously through resolution and the
model handle factory; no branch catches, retries, translates or
substitutes a fallback. -/
theorem claim_C4 {π ρ : Type} {ε : Type}
    (P : Providers ε (CallableModel π ρ))
    (mw : List (MiddlewareStage π ρ)) (rest id : String) (e : ε) :
    (P.anthropic rest = Except.error e →
      customModel P mw ("anthropic:" ++ rest) = Except.error e) ∧
    (P.bedrock rest = Except.error e →
      customModel P mw ("bedrock:" ++ rest) = Except.error e) ∧
    (strStartsWith id "anthropic:" = false →
      strStartsWith id "bedrock:" = false →
      P.openai id = Except.error e →
      customModel P mw id = Except.error e) := by
  refine ⟨fun h => ?_, fun h => ?_, fun ha hb h => ?_⟩
  · unfold customModel
    rw [createProviderModel_anthropic, h]
    rfl
  · unfold customModel
    rw [createProviderModel_bedrock, h]
    rfl
  · unfold customModel
    rw [createProviderModel_default P id ha hb, h]
    rfl

theorem claim_C4_witness :
    failingProviders.anthropic "claude-3-5-sonnet-20241022" =
      Except.error "anthropic credentials missing" ∧
    customModel failingProviders [] "anthropic:claude-3-5-sonnet-20241022" =
      Except.error "anthropic credentials missing" :=
  ⟨rfl,
    (claim_C4 failingProviders [] "claude-3-5-sonnet-20241022" "x"
      "anthropic credentials missing").1 rfl⟩

/-- Claim C5: resolution is a deterministic pure function of the
identifier and the static registry — the declarative selection relation
is single-valued, the computed selection satisfies it, and both
resolution and the model handle factory factor through that unique
selection, so two runs with equal inputs produce equal outcomes. -/
theorem claim_C5 {ε π ρ : Type} (P : Providers ε (CallableModel π ρ))
    (mw : List (MiddlewareStage π ρ)) (id : String) (s₁ s₂ : Selection) :
    (SelectsSpec id s₁ → SelectsSpec id s₂ → s₁ = s₂) ∧
    SelectsSpec id (selectProvider id) ∧
    createProviderModel P id = applySelection P (selectProvider id) ∧
    customModel P mw id =
      (applySelection P (selectProvider id)).map (fun m => wrap m mw) := by
  refine ⟨fun h₁ h₂ => selectsSpec_unique h₁ h₂, selectProvider_selects id,
    createProviderModel_eq_applySelection P id, ?_⟩
  unfold customModel
  rw [createProviderModel_eq_applySelection]

theorem claim_C5_witness :
    SelectsSpec "bedrock:b" (Selection.bedrock "b") ∧
    Selection.bedrock "b" = Selection.bedrock "b" ∧
    SelectsSpec "bedrock:b" (selectProvider "bedrock:b") ∧
    createProviderModel natProviders "bedrock:b" =
      applySelection natProviders (selectProvider "bedrock:b") ∧
    customModel natProviders [] "bedrock:b" =
      (applySelection natProviders (selectProvider "bedrock:b")).map
        (fun m => wrap m []) := by
  have hs : SelectsSpec "bedrock:b" (Selection.bedrock "b") := ⟨rfl, rfl⟩
  have h := claim_C5 natProviders [] "bedrock:b" (Selection.bedrock "b")
    (Selection.bedrock "b")
  exact ⟨hs, h.1 hs hs, h.2.1, h.2.2.1, h.2.2.2⟩

/-- Claim C6: parameter transformations are applied in list order — for
stages `[A, B]` both defining `transformParams`, the real provider sees
`B.transformParams (A.transformParams original)` — and a stage lacking
`transformParams` passes parameters through unchanged. -/
theorem claim_C6 {π ρ : Type} (real : π → ρ) (f g : π → π) (p : π) :
    (wrap ⟨real⟩ [⟨some f, none⟩, ⟨some g, none⟩]).generate p =
      real (g (f p)) ∧
    (wrap ⟨real⟩ [⟨none, none⟩, ⟨some g, none⟩]).generate p = real (g p) ∧
    (wrap ⟨real⟩ [⟨some f, none⟩, ⟨none, none⟩]).generate p = real (f p) :=
  ⟨rfl, rfl, rfl⟩

/-- Claim C7: each of the logger's four severity-leveled writes emits
exactly when the configured level is at or above its severity, and is a
no-op exactly when the level is below it. -/
theorem claim_C7 (logLevel : Nat) (context msg : String)
    (console : List LogEntry) :
    (loggerDebug logLevel context msg console =
        console ++ [⟨"DEBUG", context, msg⟩] ↔ LogLevel.DEBUG ≤ logLevel) ∧
    (loggerDebug logLevel context msg console = console ↔
        logLevel < LogLevel.DEBUG) ∧
    (loggerInfo logLevel context msg console =
        console ++ [⟨"INFO", context, msg⟩] ↔ LogLevel.INFO ≤ logLevel) ∧
    (loggerInfo logLevel context msg console = console ↔
        logLevel < LogLevel.INFO) ∧
    (loggerWarn logLevel context msg console =
        console ++ [⟨"WARN", context, msg⟩] ↔ LogLevel.WARN ≤ logLevel) ∧
    (loggerWarn logLevel context msg console = console ↔
        logLevel < LogLevel.WARN) ∧
    (loggerError logLevel context msg console =
        console ++ [⟨"ERROR", context, msg⟩] ↔ LogLevel.ERROR ≤ logLevel) ∧
    (loggerError logLevel context msg console = console ↔
        logLevel < LogLevel.ERROR) :=
  ⟨emit_iff LogLevel.DEBUG logLevel ⟨"DEBUG", context, msg⟩ console,
    noop_iff LogLevel.DEBUG logLevel ⟨"DEBUG", context, msg⟩ console,
    emit_iff LogLevel.INFO logLevel ⟨"INFO", context, msg⟩ console,
    noop_iff LogLevel.INFO logLevel ⟨"INFO", context, msg⟩ console,
    emit_iff LogLevel.WARN logLevel ⟨"WARN", context, msg⟩ console,
    noop_iff LogLevel.WARN logLevel ⟨"WARN", context, msg⟩ console,
    emit_iff LogLevel.ERROR logLevel ⟨"ERROR", context, msg⟩ console,
    noop_iff LogLevel.ERROR logLevel ⟨"ERROR", context, msg⟩ console⟩

/-- Claim C8: the upload endpoint stores the blob and returns the
storage descriptor only when the blob passes FileSchema (size at most
5 * 1024 * 1024 bytes and type image/jpeg or image/png); a failing blob
yields status 400 with nothing stored. -/
theorem claim_C8 {δ : Type} (file : Blob) (put : String → Except Unit δ)
    (authed bodyPresent : Bool) (formFile : Except Unit (Option Blob)) :
    (fileValid file = false →
      uploadPOST true true (Except.ok (some file)) put =
        ⟨400, false, none⟩) ∧
    (fileValid file = true → ∀ d : δ, put file.name = Except.ok d →
      uploadPOST true true (Except.ok (some file)) put =
        ⟨200, true, some d⟩) ∧
    ((uploadPOST authed bodyPresent formFile put).stored = true →
      ∃ f, formFile = Except.ok (some f) ∧ fileValid f = true) ∧
    ((uploadPOST authed bodyPresent formFile put).descriptor.isSome =
        true →
      ∃ f, formFile = Except.ok (some f) ∧ fileValid f = true) := by
  refine ⟨fun hv => ?_, fun hv d hd => ?_, fun h => ?_, fun h => ?_⟩
  · simp [uploadPOST, hv]
  · simp [uploadPOST, hv, hd]
  · match authed, bodyPresent, formFile with
    | false, _, _ => simp [uploadPOST] at h
    | true, false, _ => simp [uploadPOST] at h
    | true, true, Except.error u => simp [uploadPOST] at h
    | true, true, Except.ok none => simp [uploadPOST] at h
    | true, true, Except.ok (some f) =>
      by_cases hv : fileValid f
      · exact ⟨f, rfl, hv⟩
      · simp [uploadPOST, hv] at h
  · match authed, bodyPresent, formFile with
    | false, _, _ => simp [uploadPOST] at h
    | true, false, _ => simp [uploadPOST] at h
    | true, true, Except.error u => simp [uploadPOST] at h
    | true, true, Except.ok none => simp [uploadPOST] at h
    | true, true, Except.ok (some f) =>
      by_cases hv : fileValid f
      · exact ⟨f, rfl, hv⟩
      · simp [uploadPOST, hv] at h

theorem claim_C8_witness :
    fileValid ⟨6 * 1024 * 1024, "image/png", "big.png"⟩ = false ∧
    uploadPOST true true
        (Except.ok (some ⟨6 * 1024 * 1024, "image/png", "big.png"⟩))
        (fun n => Except.ok ("https://blob.example/" ++ n)) =
      ⟨400, false, none⟩ :=
  ⟨by decide,
    (claim_C8 ⟨6 * 1024 * 1024, "image/png", "big.png"⟩
      (fun n => Except.ok ("https://blob.example/" ++ n))
      true true (Except.ok none)).1 (by decide)⟩

/-- Claim C9: the empty identifier raises no error in this layer: no
namespace prefix matches, so the empty string goes whole to the default
(openai) constructor, and the factory wraps whatever that constructor
returns. -/
theorem claim_C9 {ε π ρ : Type} (P : Providers ε (CallableModel π ρ))
    (mw : List (MiddlewareStage π ρ)) :
    createProviderModel P "" = P.openai "" ∧
    customModel P mw "" = (P.openai "").map (fun m => wrap m mw) := by
  have h : createProviderModel P "" = P.openai "" :=
    createProviderModel_default P "" rfl rfl
  refine ⟨h, ?_⟩
  unfold customModel
  rw [h]

/-- Claim C10: in the static model catalog every entry's id equals its
apiIdentifier, the ids are pairwise distinct, and DEFAULT_MODEL_NAME is
the id of some entry. -/
theorem claim_C10 :
    models.all (fun m => m.id == m.apiIdentifier) = true ∧
    (models.map (fun m => m.id)).Nodup ∧
    (models.map (fun m => m.id)).contains DEFAULT_MODEL_NAME = true := by
  refine ⟨by decide, by decide, by decide⟩

end AiChatbot
